import Mathlib

/-!
Shallow embedding of the learning-tracking core of `backend/learning.py`
(AI study helper).  Python floats are modelled as exact rationals (`ℚ`);
timestamps are modelled as integers counting seconds since an epoch, with
`timedelta.days` rendered as flooring division by 86400 (Python's
`timedelta` normalisation floors towards minus infinity).  Embedding
vectors are lists of rationals; the L2 norm used by the similarity
matcher is real-valued (`Real.sqrt`).
-/

set_option maxRecDepth 8192

namespace StudyHelper

/-- Seconds in a day; `(now - last_seen).days` is `fdiv` by this. -/
def secondsPerDay : ℤ := 86400

/-- `SIMILARITY_THRESHOLD = 0.85` from `learning.py`. -/
def SIMILARITY_THRESHOLD : ℚ := 85 / 100

/-- `DECAY_PER_DAY = 0.1` from `learning.py`. -/
def DECAY_PER_DAY : ℚ := 1 / 10

/-- `MAX_SIGNAL_GAIN = 3.0` from `learning.py`. -/
def MAX_SIGNAL_GAIN : ℚ := 3

/-- `SUBJECTS = {"Math", "Science", "English", "General"}` from `learning.py`. -/
def SUBJECTS : List String := ["Math", "Science", "English", "General"]

/-- `SIGNAL_WEIGHTS` dictionary from `learning.py`, with the `.get(s, 0)`
default folded in: any string outside the three keys has weight 0. -/
def SIGNAL_WEIGHTS (s : String) : ℚ :=
  if s = "follow_up" then 1
  else if s = "self_correction" then 2
  else if s = "cross_topic_transfer" then 1
  else 0

/-- `update_confidence_score(current_score, signals)` from `learning.py`:
`gain = sum(SIGNAL_WEIGHTS.get(s, 0) for s in signals)`;
returns `current_score + min(gain, MAX_SIGNAL_GAIN)`. -/
def update_confidence_score (current_score : ℚ) (signals : List String) : ℚ :=
  let gain := (signals.map SIGNAL_WEIGHTS).sum
  current_score + min gain MAX_SIGNAL_GAIN

/-- `score_to_confidence(score)` from `learning.py`:
`< 3 → "Weak"`, `< 5 → "Improving"`, else `"Strong"`. -/
def score_to_confidence (score : ℚ) : String :=
  if score < 3 then "Weak"
  else if score < 5 then "Improving"
  else "Strong"

/-- A row of the `concept_clusters` table as `learning.py` reads and
writes it (the `id` primary key stands for SQLAlchemy object identity). -/
structure ConceptCluster where
  id : ℕ
  user_id : ℕ
  subject : String
  embedding : List ℚ
  name : String
  confidence_score : ℚ
  confidence : String
  last_seen : ℤ
deriving DecidableEq, Repr

/-- A row of the `subject_clusters` table. -/
structure SubjectCluster where
  id : ℕ
  user_id : ℕ
  subject : String
  learning_skill : String
  last_updated : ℤ
deriving DecidableEq, Repr

/-- A row of the `interaction_signals` table. -/
structure InteractionSignal where
  user_id : ℕ
  type : String
  timestamp : ℤ
  message_id : Option ℕ
deriving DecidableEq, Repr

/-- `(now - cluster.last_seen).days` in `update_concept_confidence`:
Python's `timedelta.days` floors towards minus infinity. -/
def days_passed (now last_seen : ℤ) : ℤ :=
  Int.fdiv (now - last_seen) secondsPerDay

/-- The decay step of `update_concept_confidence`: the guarded
`if days_passed > 1: confidence_score = max(0, confidence_score -
DECAY_PER_DAY * days_passed)`. -/
def decayed_score (score : ℚ) (d : ℤ) : ℚ :=
  if d > 1 then max 0 (score - DECAY_PER_DAY * d) else score

/-- `update_concept_confidence(cluster, signals, now)` from `learning.py`,
rendered functionally (the Python mutates the cluster in place):
decay only when `days_passed > 1`, floored at 0; then the signal gain;
then the derived label; `last_seen` is advanced to `now`. -/
def update_concept_confidence (cluster : ConceptCluster) (signals : List String)
    (now : ℤ) : ConceptCluster :=
  let decayed := decayed_score cluster.confidence_score
    (days_passed now cluster.last_seen)
  let s := update_confidence_score decayed signals
  { cluster with
      confidence_score := s
      confidence := score_to_confidence s
      last_seen := now }

/-- Python's `in` on strings: `isPrefL w t` checks that `w` starts `t`. -/
def isPrefL : List Char → List Char → Bool
  | [], _ => true
  | _ :: _, [] => false
  | a :: as, b :: bs => a = b && isPrefL as bs

/-- Python's `w in t` contiguous-substring test on character lists. -/
def isSubL (w : List Char) : List Char → Bool
  | [] => w.isEmpty
  | c :: cs => isPrefL w (c :: cs) || isSubL w cs

/-- `text.lower()` rendered on the character list (ASCII lowering). -/
def lowerStr (s : String) : List Char := s.data.map Char.toLower

/-- `any(w in text.lower() for w in ws)` from `extract_signals`. -/
def containsAny (text : String) (ws : List String) : Bool :=
  ws.any (fun w => isSubL w.data (lowerStr text))

/-- `extract_signals(text)` from `learning.py`: keyword matches append
`follow_up`, `self_correction`, `cross_topic_transfer` in that order. -/
def extract_signals (text : String) : List String :=
  (if containsAny text ["why", "how", "can you explain", "what if"]
    then ["follow_up"] else []) ++
  (if containsAny text ["oops", "sorry", "i meant", "correction"]
    then ["self_correction"] else []) ++
  (if containsAny text ["like in math", "as in science", "similarly in"]
    then ["cross_topic_transfer"] else [])

/-- Dot product of two rational vectors (`vectors @ embedding` rowwise,
with numpy zip-truncation semantics on unequal lengths). -/
def dotQ (v w : List ℚ) : ℚ := (List.zipWith (· * ·) v w).sum

/-- Sum of squares of a vector; `np.linalg.norm` is its square root. -/
def sumSq (v : List ℚ) : ℚ := dotQ v v

/-- `np.linalg.norm(v)` for a rational vector, as a real number. -/
noncomputable def norm2 (v : List ℚ) : ℝ := Real.sqrt (sumSq v)

/-- One row of the similarity computation in `find_best_cluster`:
the stored vector is divided by its norm (a zero norm is replaced by 1,
`norms[norms == 0] = 1`) and dotted with the query embedding, so the
similarity is `dot(v, q) / max(norm(v), its zero-guard)`. -/
noncomputable def cosine_sim (embedding : List ℚ) (v : List ℚ) : ℝ :=
  let n := norm2 v
  (dotQ v embedding : ℝ) / (if n = 0 then 1 else n)

/-- `np.argmax` on a list of reals: index of the first maximal element.
`bv` is the best value so far, `bi` its index, `i` the next index. -/
noncomputable def argmaxGo : List ℝ → ℝ → ℕ → ℕ → ℕ
  | [], _, bi, _ => bi
  | x :: xs, bv, bi, i => if bv < x then argmaxGo xs x i (i + 1)
                          else argmaxGo xs bv bi (i + 1)

/-- `np.argmax` over a list (0 on the empty list, as a convention the
matcher never relies on: it returns early on the empty list). -/
noncomputable def argmaxL : List ℝ → ℕ
  | [] => 0
  | x :: xs => argmaxGo xs x 0 1

/-- `find_best_cluster(embedding, clusters)` from `learning.py`: `(None,
0.0)` on an empty list; otherwise the cluster at the `np.argmax` of the
cosine similarities, with that similarity. -/
noncomputable def find_best_cluster (embedding : List ℚ)
    (clusters : List ConceptCluster) : Option ConceptCluster × ℝ :=
  match clusters with
  | [] => (none, 0)
  | _ :: _ =>
    let sims := clusters.map (fun c => cosine_sim embedding c.embedding)
    let idx := argmaxL sims
    (clusters[idx]?, sims.getD idx 0)

/-- `recompute_subject_confidence(subject_cluster, clusters, subject,
best_cluster)` from `learning.py`, rendered functionally.  The Python
identity test `c is not best_cluster` is rendered as primary-key
inequality (`id`), matching the ORM identity map.  When `relevant` is
empty the function returns without touching the subject cluster. -/
def recompute_subject_confidence (subject_cluster : SubjectCluster)
    (clusters : List ConceptCluster) (subject : String)
    (best_cluster : Option ConceptCluster) : SubjectCluster :=
  let notBest : ConceptCluster → Bool := fun c =>
    match best_cluster with
    | some b => c.id != b.id
    | none => true
  let relevant := clusters.filter (fun c => c.subject == subject && notBest c)
  let relevant2 :=
    match best_cluster with
    | some b => if b.subject == subject then relevant ++ [b] else relevant
    | none => relevant
  if relevant2.isEmpty then subject_cluster
  else
    let avg_score :=
      ((relevant2.map (fun c => c.confidence_score)).sum) / relevant2.length
    { subject_cluster with learning_skill := score_to_confidence avg_score }

/-- Python `str.strip()` whitespace test (ASCII whitespace). -/
def pyIsSpace (c : Char) : Bool :=
  c = ' ' || c = '\t' || c = '\n' || c = '\r' || c = '\x0b' || c = '\x0c'

/-- Python `message.strip()` on the character list: drop leading and
trailing whitespace. -/
def pyStrip (s : String) : List Char :=
  ((s.data.dropWhile pyIsSpace).reverse.dropWhile pyIsSpace).reverse

/-- `classify_and_name(message)` from `learning.py`.  The external LLM
call and the JSON extraction of its reply are the oracle `llm`; the
code around it is kept: the empty/whitespace guard returning
`("General", None)` without calling the LLM, and the closed-enum
fallback `if subject not in SUBJECTS: subject = "General"`. -/
def classify_and_name (llm : String → String × Option String)
    (message : String) : String × Option String :=
  if message.data = [] ∨ pyStrip message = [] then ("General", none)
  else
    let (subject, name) := llm message
    (if subject ∈ SUBJECTS then subject else "General", name)

/-- The database state `process_learning_message` reads and writes:
the three tables the learning core touches. -/
structure LearnState where
  concepts : List ConceptCluster
  subjects : List SubjectCluster
  signals : List InteractionSignal
deriving DecidableEq, Repr

/-- Step 2 of `process_learning_message`:
`select(ConceptCluster).where(ConceptCluster.user_id == user_id)` —
the candidate list handed to `find_best_cluster` is filtered by user
only. -/
def candidate_clusters (concepts : List ConceptCluster) (user_id : ℕ) :
    List ConceptCluster :=
  concepts.filter (fun c => c.user_id = user_id)

/-- The exception raised by the new-concept branch of
`process_learning_message`: `models.py` declares no `confidence_score`
column on `ConceptCluster`, so the SQLAlchemy declarative constructor
call `ConceptCluster(confidence_score=...)` at `learning.py` line 228
rejects the keyword. -/
def constructorTypeError : String :=
  "TypeError: confidence_score is an invalid keyword argument for ConceptCluster"

/-- `process_learning_message(db, user_id, message, message_id)` from
`learning.py`, rendered functionally over `LearnState`.
`embed` is the oracle for `get_embedding` (external embedder plus its
normalisation); `llm` the oracle inside `classify_and_name`; `new_sid`
the primary key the database would assign to a newly created
`SubjectCluster`.  In-place ORM mutation is rendered as replacement at
the same primary key; SQLAlchemy aliasing of the queried `clusters`
list with the mutated best cluster is rendered by updating that list at
the best cluster's key before the subject recomputation.  The
new-concept branch is fallible: after the `get_embedding` and
`classify_and_name` calls, the constructor
`ConceptCluster(confidence_score=initial_score, ...)` raises
`TypeError` because the ORM model declares no `confidence_score`
column, so the branch aborts before any `db.add` and nothing is
persisted; this is rendered as `Except.error`.  On success the result
is the new state plus the Python return value
`(subject_cluster, signals)`. -/
noncomputable def process_learning_message
    (embed : String → List ℚ) (llm : String → String × Option String)
    (new_sid : ℕ) (st : LearnState) (user_id : ℕ)
    (message : String) (message_id : Option ℕ) (now : ℤ) :
    Except String (LearnState × SubjectCluster × List String) :=
  -- 1. Get embeddings and signals
  let embedding := embed message
  let signals := extract_signals message
  -- 2. Load user's concept clusters
  let clusters := candidate_clusters st.concepts user_id
  -- 3. Find best matching cluster
  let (bestOpt, similarity) := find_best_cluster embedding clusters
  -- New concept → classify, then `ConceptCluster(confidence_score=...)`
  -- raises TypeError (no such column in models.py): the branch errors
  -- after the classifier call, before any `db.add`.
  let _classified := classify_and_name llm message
  let step : Except String
      (ConceptCluster × String × List ConceptCluster × List ConceptCluster) :=
    match bestOpt with
    | some b =>
      if similarity > (SIMILARITY_THRESHOLD : ℝ) then
        let updated := update_concept_confidence b signals now
        .ok (updated, b.subject,
         st.concepts.map (fun c => if c.id = b.id then updated else c),
         clusters.map (fun c => if c.id = b.id then updated else c))
      else .error constructorTypeError
    | none => .error constructorTypeError
  match step with
  | .error e => .error e
  | .ok (best, subject, concepts2, clustersView) =>
    -- 4. Load or create subject cluster
    let scOpt := (st.subjects.filter (fun s =>
      s.user_id = user_id ∧ s.subject = subject)).head?
    let subject_cluster : SubjectCluster :=
      match scOpt with
      | some sc => sc
      | none =>
        { id := new_sid
          user_id := user_id
          subject := subject
          learning_skill := "Weak"
          last_updated := now }
    -- 5. Update subject confidence
    let sc2 := recompute_subject_confidence subject_cluster clustersView
      subject (some best)
    let sc3 := { sc2 with last_updated := now }
    let subjects2 :=
      match scOpt with
      | some sc => st.subjects.map (fun s => if s.id = sc.id then sc3 else s)
      | none => st.subjects ++ [sc3]
    -- 6. Store interaction signals
    let sigRows := signals.map (fun sig =>
      ({ user_id := user_id, type := sig, timestamp := now,
         message_id := message_id } : InteractionSignal))
    .ok ({ concepts := concepts2, subjects := subjects2,
           signals := st.signals ++ sigRows }, sc3, signals)

/-! ### Shared helper lemmas -/

theorem signal_weight_nonneg (s : String) : 0 ≤ SIGNAL_WEIGHTS s := by
  unfold SIGNAL_WEIGHTS
  split <;> norm_num
  split <;> norm_num
  split <;> norm_num

theorem signal_gain_nonneg (signals : List String) :
    0 ≤ (signals.map SIGNAL_WEIGHTS).sum := by
  apply List.sum_nonneg
  intro x hx
  obtain ⟨s, _, rfl⟩ := List.mem_map.mp hx
  exact signal_weight_nonneg s

theorem update_confidence_score_eq (s : ℚ) (signals : List String) :
    update_confidence_score s signals
      = s + min ((signals.map SIGNAL_WEIGHTS).sum) MAX_SIGNAL_GAIN := rfl

theorem empty_signal_gain (s : ℚ) : update_confidence_score s [] = s := by
  simp [update_confidence_score, MAX_SIGNAL_GAIN]

/-! ### Claims -/

/-- Claim C6: `score_to_confidence` is a total deterministic mapping with
boundaries `score < 3 → Weak`, `3 ≤ score < 5 → Improving`,
`score ≥ 5 → Strong`; in particular `3` maps to `Improving` and `5` to
`Strong`. -/
theorem C6_score_to_confidence_boundaries :
    (∀ s : ℚ, s < 3 → score_to_confidence s = "Weak") ∧
    (∀ s : ℚ, 3 ≤ s → s < 5 → score_to_confidence s = "Improving") ∧
    (∀ s : ℚ, 5 ≤ s → score_to_confidence s = "Strong") ∧
    score_to_confidence 3 = "Improving" ∧
    score_to_confidence 5 = "Strong" := by
  refine ⟨?_, ?_, ?_, ?_, ?_⟩
  · intro s h
    simp [score_to_confidence, h]
  · intro s h1 h2
    rw [score_to_confidence, if_neg (by linarith), if_pos h2]
  · intro s h
    rw [score_to_confidence, if_neg (by linarith), if_neg (by linarith)]
  · norm_num [score_to_confidence]
  · norm_num [score_to_confidence]

/-- Witness for C6 at scores 2, 7/2 and 6. -/
theorem C6_score_to_confidence_boundaries_witness :
    score_to_confidence 2 = "Weak" ∧ score_to_confidence (7/2) = "Improving" ∧
    score_to_confidence 6 = "Strong" :=
  ⟨C6_score_to_confidence_boundaries.1 2 (by norm_num),
   C6_score_to_confidence_boundaries.2.1 (7/2) (by norm_num) (by norm_num),
   C6_score_to_confidence_boundaries.2.2.1 6 (by norm_num)⟩

/-- Claim C10: `update_confidence_score s signals = s + min(gain, 3)`
where `gain` sums the per-signal weights (`follow_up = 1`,
`self_correction = 2`, `cross_topic_transfer = 1`, anything else `0`);
a reinforcement call never decreases the score and never adds more
than `3`. -/
theorem C10_update_confidence_score_gain :
    (∀ (s : ℚ) (signals : List String),
      update_confidence_score s signals
        = s + min ((signals.map SIGNAL_WEIGHTS).sum) 3) ∧
    SIGNAL_WEIGHTS "follow_up" = 1 ∧
    SIGNAL_WEIGHTS "self_correction" = 2 ∧
    SIGNAL_WEIGHTS "cross_topic_transfer" = 1 ∧
    (∀ x : String, x ≠ "follow_up" → x ≠ "self_correction" →
      x ≠ "cross_topic_transfer" → SIGNAL_WEIGHTS x = 0) ∧
    (∀ (s : ℚ) (signals : List String),
      s ≤ update_confidence_score s signals) ∧
    (∀ (s : ℚ) (signals : List String),
      update_confidence_score s signals ≤ s + 3) := by
  refine ⟨fun s signals => rfl, rfl, rfl, rfl, ?_, ?_, ?_⟩
  · intro x h1 h2 h3
    simp [SIGNAL_WEIGHTS, h1, h2, h3]
  · intro s signals
    rw [update_confidence_score_eq]
    have h0 := signal_gain_nonneg signals
    have : (0:ℚ) ≤ min ((signals.map SIGNAL_WEIGHTS).sum) MAX_SIGNAL_GAIN := by
      apply le_min h0
      norm_num [MAX_SIGNAL_GAIN]
    linarith
  · intro s signals
    rw [update_confidence_score_eq]
    have : min ((signals.map SIGNAL_WEIGHTS).sum) MAX_SIGNAL_GAIN
        ≤ MAX_SIGNAL_GAIN := min_le_right _ _
    have h3 : MAX_SIGNAL_GAIN = 3 := rfl
    linarith [this]

/-- Witness for C10 at the unknown signal string `"hello"`. -/
theorem C10_update_confidence_score_gain_witness :
    SIGNAL_WEIGHTS "hello" = 0 :=
  C10_update_confidence_score_gain.2.2.2.2.1 "hello" (by decide) (by decide)
    (by decide)

/-- A concrete concept cluster used in concrete evaluations. -/
def sampleCluster (i : ℕ) (score : ℚ) (seen : ℤ) : ConceptCluster :=
  { id := i
    user_id := 1
    subject := "Math"
    embedding := [1]
    confidence_score := score
    confidence := score_to_confidence score
    last_seen := seen
    name := "Algebra" }

/-- Claim C1 is false on the code: there is no clamp of
`confidence_score` at `MAX_CONFIDENCE = 6.0`.  Two same-day updates of a
fresh cluster (score `0.5`), each carrying a `self_correction` and a
`follow_up` signal (gain `3.0`), push the score to `6.5 > 6`. -/
theorem C1_counterexample :
    6 < (update_concept_confidence
          (update_concept_confidence (sampleCluster 1 (1/2) 0)
            ["self_correction", "follow_up"] 0)
          ["self_correction", "follow_up"] 0).confidence_score := by
  norm_num [update_concept_confidence, decayed_score, days_passed,
    sampleCluster, update_confidence_score, SIGNAL_WEIGHTS, DECAY_PER_DAY,
    MAX_SIGNAL_GAIN, secondsPerDay]
  rw [if_neg (by decide : ¬("self_correction" = "follow_up"))]
  norm_num [min_self]

/-- Claim C1 amended: only the per-update signal gain is capped (at
`MAX_SIGNAL_GAIN = 3.0` above the post-decay score, and an update never
drops below the post-decay score); the cumulative `confidence_score`
itself is never clamped and repeated updates can exceed `6.0`. -/
theorem C1_amended_signal_cap (cluster : ConceptCluster)
    (signals : List String) (now : ℤ) :
    decayed_score cluster.confidence_score (days_passed now cluster.last_seen)
        ≤ (update_concept_confidence cluster signals now).confidence_score ∧
    (update_concept_confidence cluster signals now).confidence_score
        ≤ decayed_score cluster.confidence_score
            (days_passed now cluster.last_seen) + MAX_SIGNAL_GAIN := by
  have hget : (update_concept_confidence cluster signals now).confidence_score
      = update_confidence_score
          (decayed_score cluster.confidence_score
            (days_passed now cluster.last_seen)) signals := rfl
  constructor
  · rw [hget, update_confidence_score_eq]
    have h0 := signal_gain_nonneg signals
    have hmin : (0:ℚ) ≤ min ((signals.map SIGNAL_WEIGHTS).sum)
        MAX_SIGNAL_GAIN := le_min h0 (by norm_num [MAX_SIGNAL_GAIN])
    linarith
  · rw [hget, update_confidence_score_eq]
    have hmin := min_le_right ((signals.map SIGNAL_WEIGHTS).sum)
      MAX_SIGNAL_GAIN
    linarith

/-- Claim C2 is false on the code at `N = 1`: the decay guard is
`if days_passed > 1`, so a cluster untouched for exactly one whole day
(score 5, `last_seen = 0`, `now = 86400` seconds) keeps score `5`
unchanged, while the claim demands `max(0, 5 - 0.1·1) = 4.9`. -/
theorem C2_counterexample :
    days_passed 86400 (sampleCluster 1 5 0).last_seen = 1 ∧
    (update_concept_confidence (sampleCluster 1 5 0) [] 86400).confidence_score
      = 5 ∧
    max 0 ((5:ℚ) - DECAY_PER_DAY * 1) = 49/10 ∧
    (5:ℚ) ≠ 49/10 := by
  refine ⟨by decide, ?_, ?_, by norm_num⟩
  · have hget : (update_concept_confidence (sampleCluster 1 5 0) []
        86400).confidence_score = decayed_score (5:ℚ) (days_passed 86400 0) :=
      empty_signal_gain _
    have hd : days_passed 86400 (0:ℤ) = 1 := by decide
    rw [hget, hd, decayed_score, if_neg (by norm_num)]
  · rw [max_eq_right (by norm_num [DECAY_PER_DAY])]
    norm_num [DECAY_PER_DAY]

/-- Claim C2 amended: the decay `max(0, score - 0.1·N)` is applied only
when the elapsed whole days `N` satisfy `N ≥ 2`; for `N ≤ 1` (including
exactly one day) the pre-reinforcement score is left unchanged.
(Stated with an empty signal list, whose gain is zero, so the final
score is the pre-reinforcement score.) -/
theorem C2_amended_decay_threshold (cluster : ConceptCluster) (now : ℤ) :
    (2 ≤ days_passed now cluster.last_seen →
      (update_concept_confidence cluster [] now).confidence_score
        = max 0 (cluster.confidence_score
            - DECAY_PER_DAY * days_passed now cluster.last_seen)) ∧
    (days_passed now cluster.last_seen ≤ 1 →
      (update_concept_confidence cluster [] now).confidence_score
        = cluster.confidence_score) := by
  have hget : (update_concept_confidence cluster [] now).confidence_score
      = decayed_score cluster.confidence_score
          (days_passed now cluster.last_seen) := by
    show update_confidence_score _ [] = _
    exact empty_signal_gain _
  constructor
  · intro h
    rw [hget, decayed_score, if_pos (by omega)]
  · intro h
    rw [hget, decayed_score, if_neg (by omega)]

/-- Witness for C2 amended: score 5, three elapsed days decays to 4.7;
one elapsed day leaves 5. -/
theorem C2_amended_decay_threshold_witness :
    (update_concept_confidence (sampleCluster 1 5 0) [] 259200).confidence_score
      = max 0 ((sampleCluster 1 5 0).confidence_score
          - DECAY_PER_DAY * days_passed 259200 (sampleCluster 1 5 0).last_seen) ∧
    (update_concept_confidence (sampleCluster 1 5 0) [] 86400).confidence_score
      = (sampleCluster 1 5 0).confidence_score :=
  ⟨(C2_amended_decay_threshold (sampleCluster 1 5 0) 259200).1 (by decide),
   (C2_amended_decay_threshold (sampleCluster 1 5 0) 86400).2 (by decide)⟩

/-- Claim C5 is false on the code: no spacing bonus exists.  With a
3-day gap (inside the claimed 2–14-day sweet spot), a score-5 cluster
updated with no signals ends at the plain decayed value `4.7`, not at
`decayed + 1.0`. -/
theorem C5_counterexample :
    2 ≤ days_passed 259200 (sampleCluster 1 5 0).last_seen ∧
    days_passed 259200 (sampleCluster 1 5 0).last_seen ≤ 14 ∧
    (update_concept_confidence (sampleCluster 1 5 0) [] 259200).confidence_score
      = 47/10 ∧
    (47:ℚ)/10 ≠ max 0 ((5:ℚ) - DECAY_PER_DAY * 3) + 1 := by
  refine ⟨by decide, by decide, ?_, ?_⟩
  · have hget : (update_concept_confidence (sampleCluster 1 5 0) []
        259200).confidence_score = decayed_score (5:ℚ) (days_passed 259200 0) :=
      empty_signal_gain _
    have hd : days_passed 259200 (0:ℤ) = 3 := by decide
    rw [hget, hd, decayed_score, if_pos (by norm_num),
      max_eq_right (by norm_num [DECAY_PER_DAY])]
    norm_num [DECAY_PER_DAY]
  · rw [max_eq_right (by norm_num [DECAY_PER_DAY])]
    norm_num [DECAY_PER_DAY]

/-- Claim C5 amended: no spacing bonus exists.  For every gap inside the
2–14-day window the new score is exactly the decayed score plus the
capped signal gain, with no additional flat `+1.0`. -/
theorem C5_amended_no_spacing_bonus (cluster : ConceptCluster)
    (signals : List String) (now : ℤ)
    (h1 : 2 ≤ days_passed now cluster.last_seen)
    (h2 : days_passed now cluster.last_seen ≤ 14) :
    (update_concept_confidence cluster signals now).confidence_score
      = max 0 (cluster.confidence_score
          - DECAY_PER_DAY * days_passed now cluster.last_seen)
        + min ((signals.map SIGNAL_WEIGHTS).sum) MAX_SIGNAL_GAIN := by
  have hget : (update_concept_confidence cluster signals now).confidence_score
      = update_confidence_score
          (decayed_score cluster.confidence_score
            (days_passed now cluster.last_seen)) signals := rfl
  rw [hget, update_confidence_score_eq, decayed_score, if_pos (by omega)]

/-- Witness for C5 amended at a 3-day gap with one `follow_up` signal. -/
theorem C5_amended_no_spacing_bonus_witness :
    (update_concept_confidence (sampleCluster 1 5 0) ["follow_up"]
        259200).confidence_score
      = max 0 ((sampleCluster 1 5 0).confidence_score
          - DECAY_PER_DAY * days_passed 259200 (sampleCluster 1 5 0).last_seen)
        + min ((["follow_up"].map SIGNAL_WEIGHTS).sum) MAX_SIGNAL_GAIN :=
  C5_amended_no_spacing_bonus (sampleCluster 1 5 0) ["follow_up"] 259200
    (by decide) (by decide)

/-- The user-1 Math cluster of the counterexample database. -/
def mathCluster : ConceptCluster := sampleCluster 1 5 0

/-- The user-1 Science cluster of the counterexample database. -/
def scienceCluster : ConceptCluster :=
  { sampleCluster 2 1 0 with subject := "Science" }

/-- Claim C3 is false on the code: the candidate query
(`select(ConceptCluster).where(ConceptCluster.user_id == user_id)`)
filters by user only.  With a Math cluster and a Science cluster both
owned by user 1, both are in the candidate list handed to
`find_best_cluster`, although their subjects differ. -/
theorem C3_counterexample :
    mathCluster ∈ candidate_clusters [mathCluster, scienceCluster] 1 ∧
    scienceCluster ∈ candidate_clusters [mathCluster, scienceCluster] 1 ∧
    mathCluster.subject ≠ scienceCluster.subject := by
  refine ⟨?_, ?_, by decide⟩ <;>
    simp [candidate_clusters, mathCluster, scienceCluster, sampleCluster]

/-- Claim C3 amended: the candidate list passed to the similarity
matcher consists of all clusters of the message's user, across all of
that user's subjects; membership is characterised by the user filter
alone. -/
theorem C3_amended_user_only_filter (concepts : List ConceptCluster)
    (user_id : ℕ) (c : ConceptCluster) :
    c ∈ candidate_clusters concepts user_id
      ↔ c ∈ concepts ∧ c.user_id = user_id := by
  simp [candidate_clusters]

/-- Filtering a conjunction of boolean predicates is filtering twice. -/
theorem filter_and_split (l : List ConceptCluster)
    (p q : ConceptCluster → Bool) :
    l.filter (fun c => p c && q c) = (l.filter p).filter q := by
  induction l with
  | nil => rfl
  | cons a t ih =>
    by_cases hp : p a <;> by_cases hq : q a <;>
      simp [List.filter_cons, hp, hq, ih]

/-- Dropping a uniquely-identified member by key and re-appending it is
a permutation of the original list. -/
theorem notBest_filter_perm {l : List ConceptCluster} {b : ConceptCluster}
    (hb : b ∈ l) (hnd : (l.map (fun c => c.id)).Nodup) :
    List.Perm (l.filter (fun c => c.id != b.id) ++ [b]) l := by
  induction l with
  | nil => cases hb
  | cons a t ih =>
    rw [List.map_cons, List.nodup_cons] at hnd
    rcases List.mem_cons.mp hb with hab | hbt
    · subst hab
      rw [List.filter_cons_of_neg (by simp),
        List.filter_eq_self.mpr (fun c hc => by
          simp only [bne_iff_ne, ne_eq, decide_eq_true_eq]
          intro h
          exact hnd.1 (List.mem_map.mpr ⟨c, hc, h⟩))]
      exact List.perm_append_singleton _ _
    · have hane : a.id ≠ b.id := fun h =>
        hnd.1 (List.mem_map.mpr ⟨b, hbt, h.symm⟩)
      rw [List.filter_cons_of_pos (by simp [hane])]
      exact (ih hbt hnd.2).cons a

/-- A concrete subject cluster used in concrete evaluations. -/
def sampleSubject : SubjectCluster :=
  { id := 1
    user_id := 1
    subject := "Math"
    learning_skill := "Weak"
    last_updated := 0 }

/-- Claim C8: with `best_cluster` passed, `recompute_subject_confidence`
sets `learning_skill` to `score_to_confidence` of the arithmetic mean of
`confidence_score` over all concept clusters sharing the subject,
counting the updated cluster exactly once — both when it is already in
the list (by primary key) and when it is new (fresh key) — and the
recomputation is idempotent. -/
theorem C8_recompute_subject_mean (sc : SubjectCluster)
    (clusters : List ConceptCluster) (subject : String)
    (best : ConceptCluster) (hsubj : best.subject = subject) :
    (best ∈ clusters → (clusters.map (fun c => c.id)).Nodup →
      (recompute_subject_confidence sc clusters subject
          (some best)).learning_skill
        = score_to_confidence
            (((clusters.filter (fun c => c.subject == subject)).map
                (fun c => c.confidence_score)).sum
              / (clusters.filter (fun c => c.subject == subject)).length)) ∧
    (best.id ∉ clusters.map (fun c => c.id) →
      (recompute_subject_confidence sc clusters subject
          (some best)).learning_skill
        = score_to_confidence
            ((((clusters.filter (fun c => c.subject == subject))
                ++ [best]).map (fun c => c.confidence_score)).sum
              / ((clusters.filter (fun c => c.subject == subject))
                  ++ [best]).length)) ∧
    recompute_subject_confidence
        (recompute_subject_confidence sc clusters subject (some best))
        clusters subject (some best)
      = recompute_subject_confidence sc clusters subject (some best) := by
  have hsplit := filter_and_split clusters
    (fun c => c.subject == subject) (fun c => c.id != best.id)
  refine ⟨?_, ?_, ?_⟩
  · intro hmem hnd
    have hbf : best ∈ clusters.filter (fun c => c.subject == subject) :=
      List.mem_filter.mpr ⟨hmem, by simp [hsubj]⟩
    have hndf : ((clusters.filter (fun c => c.subject == subject)).map
        (fun c => c.id)).Nodup :=
      List.Nodup.sublist ((List.filter_sublist _).map _) hnd
    have hperm := notBest_filter_perm hbf hndf
    have hsum := (hperm.map (fun c => c.confidence_score)).sum_eq
    have hlen := hperm.length_eq
    simp only [recompute_subject_confidence, hsubj, beq_self_eq_true,
      if_true, hsplit]
    rw [if_neg (by simp)]
    rw [hsum, hlen]
  · intro hfresh
    have hself : (clusters.filter (fun c => c.subject == subject)).filter
        (fun c => c.id != best.id)
        = clusters.filter (fun c => c.subject == subject) :=
      List.filter_eq_self.mpr (fun c hc => by
        simp only [bne_iff_ne, ne_eq, decide_eq_true_eq]
        intro h
        exact hfresh (List.mem_map.mpr
          ⟨c, (List.mem_filter.mp hc).1, h⟩))
    simp only [recompute_subject_confidence, hsubj, beq_self_eq_true,
      if_true, hsplit, hself]
    rw [if_neg (by simp)]
  · have hne : ¬((clusters.filter (fun c =>
        c.subject == subject && c.id != best.id) ++ [best]).isEmpty = true) :=
      by simp
    simp only [recompute_subject_confidence, hsubj, beq_self_eq_true,
      if_true, if_neg hne]

/-- Witness for C8 on a two-cluster Math/Science database with the Math
cluster as the updated best cluster. -/
theorem C8_recompute_subject_mean_witness :
    (recompute_subject_confidence sampleSubject [mathCluster, scienceCluster]
        "Math" (some mathCluster)).learning_skill
      = score_to_confidence
          ((([mathCluster, scienceCluster].filter
              (fun c => c.subject == "Math")).map
              (fun c => c.confidence_score)).sum
            / ([mathCluster, scienceCluster].filter
                (fun c => c.subject == "Math")).length) :=
  (C8_recompute_subject_mean sampleSubject [mathCluster, scienceCluster]
      "Math" mathCluster (by decide)).1
    (List.mem_cons_self _ _) (by decide)

/-- Claim C9: after each mutating operation of the core — reinforcement
of an existing cluster via `update_concept_confidence`, or any
completed pass of `process_learning_message` over a state whose
clusters already satisfy the invariant — every cluster's `confidence`
label equals `score_to_confidence` of its `confidence_score`.  (The
cluster-creation site at `learning.py` line 233 also pairs
`confidence := score_to_confidence initial_score`, but that branch
aborts with the constructor `TypeError`, so only completed runs carry
state.) -/
theorem C9_label_invariant :
    (∀ (cluster : ConceptCluster) (signals : List String) (now : ℤ),
      (update_concept_confidence cluster signals now).confidence
        = score_to_confidence
            (update_concept_confidence cluster signals now).confidence_score) ∧
    (∀ (embed : String → List ℚ) (llm : String → String × Option String)
        (new_sid : ℕ) (st : LearnState) (user_id : ℕ)
        (message : String) (message_id : Option ℕ) (now : ℤ)
        (res : LearnState × SubjectCluster × List String),
      (∀ c ∈ st.concepts,
        c.confidence = score_to_confidence c.confidence_score) →
      process_learning_message embed llm new_sid st user_id
          message message_id now = Except.ok res →
      ∀ c ∈ res.1.concepts,
        c.confidence = score_to_confidence c.confidence_score) := by
  constructor
  · intro cluster signals now
    rfl
  · intro embed llm new_sid st user_id message message_id now res hinv hok
      c hc
    simp only [process_learning_message] at hok
    rcases hfb : find_best_cluster (embed message)
        (candidate_clusters st.concepts user_id) with ⟨bestOpt, sim⟩
    rw [hfb] at hok
    dsimp only at hok
    cases bestOpt with
    | none => exact absurd hok (by simp)
    | some b =>
      dsimp only at hok
      by_cases hgt : sim > (SIMILARITY_THRESHOLD : ℝ)
      · rw [if_pos hgt] at hok
        dsimp only at hok
        obtain rfl := (Except.ok.injEq _ _).mp hok
        rcases List.mem_map.mp hc with ⟨orig, horig, heq⟩
        by_cases hid : orig.id = b.id
        · rw [← heq, if_pos hid]
          rfl
        · rw [← heq, if_neg hid]
          exact hinv orig horig
      · rw [if_neg hgt] at hok
        exact absurd hok (by simp)

/-- Witness for C9: a state holding one well-labelled Math cluster with
embedding `[1]`, queried with the same embedding, takes the
reinforcement branch (similarity 1 > 0.85) and completes; the reinforced
cluster carries the bucketing of its score. -/
theorem C9_label_invariant_witness :
    (update_concept_confidence (sampleCluster 1 1 0) [] 0).confidence
      = score_to_confidence
          (update_concept_confidence (sampleCluster 1 1 0) []
            0).confidence_score := by
  have hsigs : extract_signals "hi" = [] := by decide
  have hdot : dotQ [(1:ℚ)] [1] = 1 := by norm_num [dotQ]
  have hnorm : norm2 [(1:ℚ)] = 1 := by
    rw [norm2, sumSq, hdot]
    simp
  have hsim : cosine_sim [1] [(1:ℚ)] = 1 := by
    simp only [cosine_sim, hdot, hnorm]
    norm_num
  have hfb : find_best_cluster [1] [sampleCluster 1 1 0]
      = (some (sampleCluster 1 1 0), 1) := by
    simp only [find_best_cluster, List.map_cons, List.map_nil, argmaxL,
      argmaxGo]
    have hemb : (sampleCluster 1 1 0).embedding = [1] := rfl
    rw [hemb, hsim]
    rfl
  have hgt : (1:ℝ) > (SIMILARITY_THRESHOLD : ℝ) := by
    norm_num [SIMILARITY_THRESHOLD]
  have hrun : process_learning_message (fun _ => [1])
      (fun _ => ("Math", none)) 8 ⟨[sampleCluster 1 1 0], [], []⟩ 1 "hi"
      none 0
      = Except.ok
        (⟨[update_concept_confidence (sampleCluster 1 1 0) [] 0],
          [{ recompute_subject_confidence
              { id := 8, user_id := 1, subject := "Math",
                learning_skill := "Weak", last_updated := 0 }
              [update_concept_confidence (sampleCluster 1 1 0) [] 0] "Math"
              (some (update_concept_confidence (sampleCluster 1 1 0) [] 0))
            with last_updated := 0 }], []⟩,
         { recompute_subject_confidence
             { id := 8, user_id := 1, subject := "Math",
               learning_skill := "Weak", last_updated := 0 }
             [update_concept_confidence (sampleCluster 1 1 0) [] 0] "Math"
             (some (update_concept_confidence (sampleCluster 1 1 0) [] 0))
           with last_updated := 0 },
         []) := by
    have hcand : candidate_clusters [sampleCluster 1 1 0] 1
        = [sampleCluster 1 1 0] := rfl
    simp only [process_learning_message, hcand, hfb, hsigs]
    rw [if_pos hgt]
    rfl
  exact C9_label_invariant.2 (fun _ => [1]) (fun _ => ("Math", none)) 8
    ⟨[sampleCluster 1 1 0], [], []⟩ 1 "hi" none 0 _
    (by intro c hc; rw [List.mem_singleton.mp hc]; rfl) hrun
    (update_concept_confidence (sampleCluster 1 1 0) [] 0)
    (List.mem_singleton.mpr rfl)

/-- A stripped-to-empty string consists of whitespace only. -/
theorem pyStrip_nil_all_space {s : String} (h : pyStrip s = []) :
    ∀ c ∈ s.data, pyIsSpace c = true := by
  unfold pyStrip at h
  rw [List.reverse_eq_nil_iff, List.dropWhile_eq_nil_iff] at h
  intro c hc
  have hsplit := List.takeWhile_append_dropWhile pyIsSpace s.data
  rw [← hsplit] at hc
  rcases List.mem_append.mp hc with htk | hdp
  · exact List.mem_takeWhile_imp htk
  · exact h c (List.mem_reverse.mpr hdp)

/-- ASCII lowering keeps whitespace whitespace. -/
theorem lower_space {c : Char} (h : pyIsSpace c = true) :
    pyIsSpace (Char.toLower c) = true := by
  simp only [pyIsSpace, Bool.or_eq_true, decide_eq_true_eq] at h
  rcases h with ((((h | h) | h) | h) | h) | h <;> subst h <;> decide

/-- Characters of a verified prefix occur in the larger list. -/
theorem isPrefL_mem {w t : List Char} (h : isPrefL w t = true) :
    ∀ c ∈ w, c ∈ t := by
  induction w generalizing t with
  | nil => simp
  | cons a as ih =>
    cases t with
    | nil => simp [isPrefL] at h
    | cons b bs =>
      simp only [isPrefL, Bool.and_eq_true, decide_eq_true_eq] at h
      intro c hc
      rcases List.mem_cons.mp hc with rfl | hcs
      · exact h.1 ▸ List.mem_cons_self _ _
      · exact List.mem_cons_of_mem _ (ih h.2 c hcs)

/-- Characters of a verified substring occur in the larger list. -/
theorem isSubL_mem {w t : List Char} (h : isSubL w t = true) :
    ∀ c ∈ w, c ∈ t := by
  induction t with
  | nil =>
    cases w with
    | nil => simp
    | cons a as => simp [isSubL, List.isEmpty] at h
  | cons b bs ih =>
    rw [isSubL, Bool.or_eq_true] at h
    rcases h with h | h
    · exact isPrefL_mem h
    · exact fun c hc => List.mem_cons_of_mem _ (ih h c hc)

/-- A keyword containing a non-whitespace character is never found
inside (the lowering of) a whitespace-only message. -/
theorem no_keyword_in_space {m : String}
    (hall : ∀ c ∈ m.data, pyIsSpace c = true) (w : String)
    (hw : ∃ c ∈ w.data, pyIsSpace c = false) :
    isSubL w.data (lowerStr m) = false := by
  rcases hsub : isSubL w.data (lowerStr m) with _ | _
  · rfl
  · obtain ⟨c, hcw, hcf⟩ := hw
    have hcm : c ∈ lowerStr m := isSubL_mem hsub c hcw
    obtain ⟨c0, hc0, rfl⟩ := List.mem_map.mp hcm
    rw [lower_space (hall c0 hc0)] at hcf
    cases hcf

/-- A whitespace-only message (as `str.strip` sees it) yields no
interaction signals. -/
theorem extract_signals_space {m : String} (h : pyStrip m = []) :
    extract_signals m = [] := by
  have hall := pyStrip_nil_all_space h
  have h1 : containsAny m ["why", "how", "can you explain", "what if"]
      = false := by
    rw [containsAny, List.any_eq_false]
    intro w hw
    rw [no_keyword_in_space hall w ?_]
    · simp
    · fin_cases hw <;> decide
  have h2 : containsAny m ["oops", "sorry", "i meant", "correction"]
      = false := by
    rw [containsAny, List.any_eq_false]
    intro w hw
    rw [no_keyword_in_space hall w ?_]
    · simp
    · fin_cases hw <;> decide
  have h3 : containsAny m ["like in math", "as in science", "similarly in"]
      = false := by
    rw [containsAny, List.any_eq_false]
    intro w hw
    rw [no_keyword_in_space hall w ?_]
    · simp
    · fin_cases hw <;> decide
  simp [extract_signals, h1, h2, h3]

/-- Claim C4 is false on the code: processing the whitespace-only
message `" "` from the empty state is not a silent no-op.  The pipeline
has no emptiness guard: the embedding is computed, the (empty) candidate
match fails, and the new-concept branch raises the constructor
`TypeError` (`models.py` declares no `confidence_score` column), so an
error is raised rather than nothing happening. -/
theorem C4_counterexample :
    pyStrip " " = [] ∧
    process_learning_message (fun _ => []) (fun _ => ("Math", none)) 8
        ⟨[], [], []⟩ 1 " " none 0
      = Except.error constructorTypeError :=
  ⟨by decide, rfl⟩

/-- Claim C4 amended: `process_learning_message` has no empty-message
guard; an empty or whitespace-only message is processed like any other.
No interaction signals are extracted, and `classify_and_name` alone
short-circuits to `("General", none)` without an LLM call; but the
pipeline still computes the embedding, and when the user has no
candidate clusters it reaches the new-concept branch, where the
`ConceptCluster(confidence_score=...)` constructor raises `TypeError`
(`models.py` has no such column).  The call therefore ends in an error
with nothing persisted — not a silent no-op. -/
theorem C4_amended_processed_not_rejected (embed : String → List ℚ)
    (llm : String → String × Option String) (new_sid : ℕ)
    (st : LearnState) (user_id : ℕ) (message : String)
    (message_id : Option ℕ) (now : ℤ)
    (hws : pyStrip message = [])
    (hno : candidate_clusters st.concepts user_id = []) :
    extract_signals message = [] ∧
    classify_and_name llm message = ("General", none) ∧
    process_learning_message embed llm new_sid st user_id message
        message_id now
      = Except.error constructorTypeError := by
  refine ⟨extract_signals_space hws, ?_, ?_⟩
  · rw [classify_and_name, if_pos (Or.inr hws)]
  · simp only [process_learning_message, hno, find_best_cluster]

/-- Witness for C4 amended at the whitespace message `" "` and the empty
state. -/
theorem C4_amended_processed_not_rejected_witness :
    extract_signals " " = [] ∧
    classify_and_name (fun _ => ("Math", none)) " " = ("General", none) ∧
    process_learning_message (fun _ => []) (fun _ => ("Math", none)) 8
        ⟨[], [], []⟩ 1 " " none 0
      = Except.error constructorTypeError :=
  C4_amended_processed_not_rejected (fun _ => []) (fun _ => ("Math", none))
    8 ⟨[], [], []⟩ 1 " " none 0 (by decide) (by decide)

/-- Invariant of the `np.argmax` scan: given a value table `g`
consistent with the best-so-far `(bv, bi)` and the remaining suffix
`l` starting at index `i`, the scan returns an in-range index whose
value dominates every seen index, strictly dominating all earlier
indices (first-maximum semantics). -/
theorem argmaxGo_spec (l : List ℝ) :
    ∀ (g : ℕ → ℝ) (bv : ℝ) (bi i : ℕ),
      bi < i → g bi = bv →
      (∀ m, m < bi → g m < bv) →
      (∀ m, bi ≤ m → m < i → g m ≤ bv) →
      (∀ j, j < l.length → g (i + j) = l.getD j 0) →
      argmaxGo l bv bi i < i + l.length ∧
      (∀ m, m < argmaxGo l bv bi i → g m < g (argmaxGo l bv bi i)) ∧
      (∀ m, m < i + l.length → g m ≤ g (argmaxGo l bv bi i)) := by
  induction l with
  | nil =>
    intro g bv bi i hbi hgbi hlt hle _
    simp only [argmaxGo, List.length_nil, Nat.add_zero]
    refine ⟨hbi, ?_, ?_⟩
    · intro m hm
      rw [hgbi]
      exact hlt m hm
    · intro m hm
      rw [hgbi]
      rcases Nat.lt_or_ge m bi with h | h
      · exact le_of_lt (hlt m h)
      · exact hle m h hm
  | cons x xs ih =>
    intro g bv bi i hbi hgbi hlt hle hidx
    have hgi : g i = x := by
      have h0 := hidx 0 (Nat.succ_pos _)
      simpa using h0
    have hidx' : ∀ j, j < xs.length → g ((i + 1) + j) = xs.getD j 0 := by
      intro j hj
      have h1 := hidx (j + 1) (by simpa using Nat.succ_lt_succ hj)
      rw [show i + (j + 1) = (i + 1) + j by omega] at h1
      simpa using h1
    simp only [argmaxGo, List.length_cons]
    by_cases hx : bv < x
    · rw [if_pos hx]
      have hres := ih g x i (i + 1) (Nat.lt_succ_self i) hgi
        (fun m hm => by
          rcases Nat.lt_or_ge m bi with h | h
          · exact lt_trans (hlt m h) hx
          · exact lt_of_le_of_lt (hle m h hm) hx)
        (fun m h1 h2 => by
          have hm0 : m = i := by omega
          rw [hm0, hgi])
        hidx'
      refine ⟨by have := hres.1; omega, hres.2.1,
        fun m hm => hres.2.2 m (by omega)⟩
    · rw [if_neg hx]
      have hxle : x ≤ bv := le_of_not_lt hx
      have hres := ih g bv bi (i + 1) (by omega) hgbi hlt
        (fun m h1 h2 => by
          rcases Nat.lt_or_ge m i with h | h
          · exact hle m h1 h
          · have hm0 : m = i := by omega
            rw [hm0, hgi]
            exact hxle)
        hidx'
      refine ⟨by have := hres.1; omega, hres.2.1,
        fun m hm => hres.2.2 m (by omega)⟩

/-- `np.argmax` on a non-empty list: in-range, maximal, and first among
equals. -/
theorem argmaxL_spec (x : ℝ) (xs : List ℝ) :
    argmaxL (x :: xs) < (x :: xs).length ∧
    (∀ m, m < argmaxL (x :: xs) →
      (x :: xs).getD m 0 < (x :: xs).getD (argmaxL (x :: xs)) 0) ∧
    (∀ m, m < (x :: xs).length →
      (x :: xs).getD m 0 ≤ (x :: xs).getD (argmaxL (x :: xs)) 0) := by
  have h := argmaxGo_spec xs (fun m => (x :: xs).getD m 0) x 0 1
    Nat.zero_lt_one (by simp) (fun m hm => absurd hm (Nat.not_lt_zero m))
    (fun m h1 h2 => by
      have hm0 : m = 0 := by omega
      simp [hm0])
    (fun j hj => by
      rw [show (1 : ℕ) + j = j + 1 by omega]
      simp)
  simp only [argmaxL, List.length_cons]
  exact ⟨by have := h.1; omega, h.2.1, fun m hm => h.2.2 m (by omega)⟩

/-- The dot product against an all-zero vector vanishes. -/
theorem dotQ_of_all_zero {v : List ℚ} (h : ∀ x ∈ v, x = 0) (w : List ℚ) :
    dotQ v w = 0 := by
  induction v generalizing w with
  | nil => rfl
  | cons a as ih =>
    cases w with
    | nil => rfl
    | cons b bs =>
      have ha : a = 0 := h a (List.mem_cons_self _ _)
      have has := ih (fun x hx => h x (List.mem_cons_of_mem _ hx)) bs
      simp only [dotQ, List.zipWith_cons_cons, List.sum_cons] at has ⊢
      simp [ha, has]

/-- A stored all-zero vector has similarity 0 with everything. -/
theorem cosine_sim_of_zero (e : List ℚ) {v : List ℚ}
    (h : ∀ x ∈ v, x = 0) : cosine_sim e v = 0 := by
  simp [cosine_sim, dotQ_of_all_zero h]

/-- Claim C7: `find_best_cluster` returns `(none, 0)` on the empty
candidate list; on a non-empty list it returns the cluster at the first
index of maximal cosine similarity together with that similarity (the
argmax index is in range, its similarity dominates all candidates, and
strictly dominates all earlier candidates); and a stored all-zero
vector is treated as similarity 0 (no division by zero). -/
theorem C7_find_best_cluster :
    (∀ e : List ℚ, find_best_cluster e [] = (none, 0)) ∧
    (∀ (e : List ℚ) (clusters : List ConceptCluster), clusters ≠ [] →
      argmaxL (clusters.map (fun c => cosine_sim e c.embedding))
          < clusters.length ∧
      (find_best_cluster e clusters).1
        = clusters[argmaxL (clusters.map
            (fun c => cosine_sim e c.embedding))]? ∧
      (find_best_cluster e clusters).2
        = (clusters.map (fun c => cosine_sim e c.embedding)).getD
            (argmaxL (clusters.map (fun c => cosine_sim e c.embedding))) 0 ∧
      (∀ j, j < clusters.length →
        (clusters.map (fun c => cosine_sim e c.embedding)).getD j 0
          ≤ (clusters.map (fun c => cosine_sim e c.embedding)).getD
              (argmaxL (clusters.map
                (fun c => cosine_sim e c.embedding))) 0) ∧
      (∀ j, j < argmaxL (clusters.map (fun c => cosine_sim e c.embedding)) →
        (clusters.map (fun c => cosine_sim e c.embedding)).getD j 0
          < (clusters.map (fun c => cosine_sim e c.embedding)).getD
              (argmaxL (clusters.map
                (fun c => cosine_sim e c.embedding))) 0)) ∧
    (∀ (e v : List ℚ), (∀ x ∈ v, x = 0) → cosine_sim e v = 0) := by
  refine ⟨fun e => rfl, ?_, fun e v h => cosine_sim_of_zero e h⟩
  intro e clusters hne
  cases clusters with
  | nil => exact absurd rfl hne
  | cons c cs =>
    have h := argmaxL_spec (cosine_sim e c.embedding)
      (cs.map (fun c => cosine_sim e c.embedding))
    simp only [List.length_cons, List.length_map] at h
    simp only [List.map_cons, List.length_cons]
    refine ⟨?_, rfl, rfl, ?_, ?_⟩
    · exact h.1
    · intro j hj
      exact h.2.2 j (by omega)
    · intro j hj
      exact h.2.1 j hj

/-- Witness for C7 on the singleton list holding `mathCluster` and on
the all-zero stored vector `[0, 0]`. -/
theorem C7_find_best_cluster_witness :
    argmaxL ([mathCluster].map (fun c => cosine_sim [1] c.embedding))
        < [mathCluster].length ∧
    cosine_sim [1] [0, 0] = 0 :=
  ⟨(C7_find_best_cluster.2.1 [1] [mathCluster] (by simp)).1,
   C7_find_best_cluster.2.2 [1] [0, 0] (by
      intro x hx
      rcases List.mem_cons.mp hx with rfl | hx
      · rfl
      · simpa using hx)⟩

end StudyHelper
